import Mathlib

/-!
Verification development for the disgo-tui repository.

The repository is a Go terminal client for the Discogs API.  The definitions
below are a shallow embedding of the parts of the code the claims are about:

* `src/internal/client/http.go`: key derivation (`generateKey`), AES-GCM
  encryption of the token file (`encrypt` / `decrypt`), secure token storage
  (`saveTokensSecurely` / `loadTokensSecurely`), the authentication /
  re-authentication control flow of `NewWithContext`, the OAuth callback
  handler (`handleRedirect`) and the callback-server lifecycle of
  `generateDiscogsTokenWithContext`.
* `src/internal/dto/discogs.go`: the DTO structures and the mapping functions
  `MapCollectionReleases` / `MapWishlistReleases`.
* `src/internal/client/discogs.go`: `GetCollection`, `GetWishlist`,
  `GetOrders`.

Bytes are modelled as natural numbers together with `< 256` bounds where they
matter.  Go's `encoding/base64` standard encoding is embedded concretely
(`b64EncodeBytes` / `b64DecodeQuanta`).  The AES-GCM primitive from
`crypto/aes` + `crypto/cipher` and the `encoding/json` codec for the two-field
`TokenConfig` object are standard-library primitives whose own code is outside
this repository; they are embedded as structures (`GCMScheme`, `TokenCodec`)
whose fields state exactly the documented contracts the repository's code
relies on (authenticated-decryption inverts sealing; `Unmarshal` inverts
`Marshal`), and concrete instances of both structures are provided so that
every statement can be evaluated on explicit inputs.  Fallible Go functions
(`([]byte, error)` results) are embedded as `Except String _`; Go `nil`
pointers as `Option`.
-/

/-! ## Base64 (Go `encoding/base64`, `StdEncoding`)

`StdEncoding` uses the alphabet `A-Z a-z 0-9 + /` with `=` padding and
processes data in quanta of three bytes / four characters. -/

def b64Alphabet : List Char :=
  ['A', 'B', 'C', 'D', 'E', 'F', 'G', 'H', 'I', 'J', 'K', 'L', 'M',
   'N', 'O', 'P', 'Q', 'R', 'S', 'T', 'U', 'V', 'W', 'X', 'Y', 'Z',
   'a', 'b', 'c', 'd', 'e', 'f', 'g', 'h', 'i', 'j', 'k', 'l', 'm',
   'n', 'o', 'p', 'q', 'r', 's', 't', 'u', 'v', 'w', 'x', 'y', 'z',
   '0', '1', '2', '3', '4', '5', '6', '7', '8', '9', '+', '/']

/-- The character used for the 6-bit value `n` (`n < 64`). -/
def natToB64Char (n : Nat) : Char :=
  b64Alphabet.getD n 'A'

/-- The 6-bit value of an alphabet character; `none` for characters outside
the alphabet (in particular for the padding character). -/
def b64CharToNat (c : Char) : Option Nat :=
  b64Alphabet.findIdx? (· == c)

/-- Go `EncodeToString`: encode a byte sequence, three bytes to four characters,
padding the final quantum with `=`.  `b / 4` is Go's `b >> 2`,
`b % 4 * 16` is `(b & 0x03) << 4`, `b / 16` is `b >> 4`,
`b % 16 * 4` is `(b & 0x0F) << 2`, `b / 64` is `b >> 6` and `b % 64` is
`b & 0x3F`. -/
def b64EncodeBytes : List Nat → List Char
  | [] => []
  | [b1] =>
      [natToB64Char (b1 / 4), natToB64Char (b1 % 4 * 16), '=', '=']
  | [b1, b2] =>
      [natToB64Char (b1 / 4), natToB64Char (b1 % 4 * 16 + b2 / 16),
       natToB64Char (b2 % 16 * 4), '=']
  | b1 :: b2 :: b3 :: rest =>
      natToB64Char (b1 / 4) :: natToB64Char (b1 % 4 * 16 + b2 / 16) ::
      natToB64Char (b2 % 16 * 4 + b3 / 64) :: natToB64Char (b3 % 64) ::
      b64EncodeBytes rest

/-- Go `DecodeString`: decode four-character quanta; padding is accepted only in
the final quantum; any character outside the alphabet, a length that is not a
multiple of four, or misplaced padding is an error. -/
def b64DecodeQuanta : List Char → Except String (List Nat)
  | [] => .ok []
  | c1 :: c2 :: c3 :: c4 :: rest =>
    match b64CharToNat c1, b64CharToNat c2 with
    | some n1, some n2 =>
      if c3 = '=' then
        if c4 = '=' ∧ rest = [] then
          .ok [n1 * 4 + n2 / 16]
        else
          .error "illegal base64 data"
      else
        match b64CharToNat c3 with
        | some n3 =>
          if c4 = '=' then
            if rest = [] then
              .ok [n1 * 4 + n2 / 16, n2 % 16 * 16 + n3 / 4]
            else
              .error "illegal base64 data"
          else
            match b64CharToNat c4 with
            | some n4 =>
              match b64DecodeQuanta rest with
              | .ok bs =>
                  .ok ((n1 * 4 + n2 / 16) :: (n2 % 16 * 16 + n3 / 4) ::
                       (n3 % 4 * 64 + n4) :: bs)
              | .error e => .error e
            | none => .error "illegal base64 data"
        | none => .error "illegal base64 data"
    | _, _ => .error "illegal base64 data"
  | _ => .error "illegal base64 data"

theorem b64CharToNat_natToB64Char : ∀ n < 64, b64CharToNat (natToB64Char n) = some n := by
  decide

theorem natToB64Char_ne_eq : ∀ n < 64, ¬ natToB64Char n = '=' := by
  decide

theorem b64_decode_encode (bs : List Nat) (hb : ∀ b ∈ bs, b < 256) :
    b64DecodeQuanta (b64EncodeBytes bs) = .ok bs := by
  induction bs using b64EncodeBytes.induct with
  | case1 =>
      rfl
  | case2 b1 =>
      have h1 : b1 < 256 := hb b1 (by simp)
      have e1 := b64CharToNat_natToB64Char (b1 / 4) (by omega)
      have e2 := b64CharToNat_natToB64Char (b1 % 4 * 16) (by omega)
      simp [b64EncodeBytes, b64DecodeQuanta, e1, e2]
      omega
  | case3 b1 b2 =>
      have h1 : b1 < 256 := hb b1 (by simp)
      have h2 : b2 < 256 := hb b2 (by simp)
      have e1 := b64CharToNat_natToB64Char (b1 / 4) (by omega)
      have e2 := b64CharToNat_natToB64Char (b1 % 4 * 16 + b2 / 16) (by omega)
      have e3 := b64CharToNat_natToB64Char (b2 % 16 * 4) (by omega)
      have ne3 := natToB64Char_ne_eq (b2 % 16 * 4) (by omega)
      simp [b64EncodeBytes, b64DecodeQuanta, e1, e2, e3, ne3]
      omega
  | case4 b1 b2 b3 rest ih =>
      have h1 : b1 < 256 := hb b1 (by simp)
      have h2 : b2 < 256 := hb b2 (by simp)
      have h3 : b3 < 256 := hb b3 (by simp)
      have hrest : ∀ b ∈ rest, b < 256 := by
        intro b hbmem; exact hb b (by simp [hbmem])
      have e1 := b64CharToNat_natToB64Char (b1 / 4) (by omega)
      have e2 := b64CharToNat_natToB64Char (b1 % 4 * 16 + b2 / 16) (by omega)
      have e3 := b64CharToNat_natToB64Char (b2 % 16 * 4 + b3 / 64) (by omega)
      have e4 := b64CharToNat_natToB64Char (b3 % 64) (by omega)
      have ne3 := natToB64Char_ne_eq (b2 % 16 * 4 + b3 / 64) (by omega)
      have ne4 := natToB64Char_ne_eq (b3 % 64) (by omega)
      simp [b64EncodeBytes, b64DecodeQuanta, e1, e2, e3, e4, ne3, ne4, ih hrest]
      omega

/-! ## AES-GCM (Go `crypto/aes` + `crypto/cipher`)

The repository calls `aes.NewCipher`, `cipher.NewGCM`, `gcm.Seal` and
`gcm.Open`, all of which live in the Go standard library, outside this
repository.  `GCMScheme` embeds their interface: `nonceSize` is
`gcm.NonceSize()` (12 for GCM), `seal k n p` is `gcm.Seal(nil, n, p, nil)`
under the cipher for key `k`, and `unseal k n ct` is `gcm.Open(nil, n, ct,
nil)`, returning an error when authentication fails.  The two proof fields
state the documented contract of an AEAD: opening a sealed message with the
same key and nonce returns the plaintext, and sealed output is a byte
sequence. -/

structure GCMScheme where
  nonceSize : Nat
  sealFn : List Nat → List Nat → List Nat → List Nat
  openFn : List Nat → List Nat → List Nat → Except String (List Nat)
  sealFn_lt : ∀ k n p, (∀ b ∈ p, b < 256) → ∀ b ∈ sealFn k n p, b < 256
  openFn_sealFn : ∀ k n p, openFn k n (sealFn k n p) = .ok p

/-- A concrete instance of the AEAD interface, used to evaluate the theorems
on explicit inputs: sealing appends a 16-byte tag of zeros and opening checks
and strips it. -/
def demoGCM : GCMScheme where
  nonceSize := 12
  sealFn := fun _ _ p => p ++ List.replicate 16 0
  openFn := fun _ _ ct =>
    if ct.length < 16 then .error "cipher: message authentication failed"
    else if ct.drop (ct.length - 16) = List.replicate 16 0 then
      .ok (ct.take (ct.length - 16))
    else .error "cipher: message authentication failed"
  sealFn_lt := by
    intro k n p hp b hmem
    simp only [List.mem_append, List.mem_replicate] at hmem
    rcases hmem with h | h
    · exact hp b h
    · omega
  openFn_sealFn := by
    intro k n p
    have hlen : (p ++ List.replicate 16 0).length = p.length + 16 := by simp
    have h1 : ¬ (p ++ List.replicate 16 0).length < 16 := by omega
    have h2 : (p ++ List.replicate 16 0).length - 16 = p.length := by omega
    simp only [h1, if_false, h2,
      @List.drop_left' _ p (List.replicate 16 0) p.length rfl,
      @List.take_left' _ p (List.replicate 16 0) p.length rfl]
    simp

/-! ## Key derivation and encryption (`src/internal/client/http.go`) -/

/-- Embeds `generateKey` (http.go lines 388-400): derive the 32-byte AES key from
the consumer secret.  The secret string's bytes are modelled as `List Nat`;
`key[:32]` is `take 32` and zero padding is `++ replicate (32 - len) 0`. -/
def generateKey (consumerSecretKey : List Nat) : List Nat :=
  let key := consumerSecretKey
  if key.length > 32 then
    key.take 32
  else if key.length < 32 then
    key ++ List.replicate (32 - key.length) 0
  else
    key

/-- Go `aes.NewCipher` errors exactly when the key is not 16, 24 or 32 bytes. -/
def aesKeySizeOk (key : List Nat) : Prop :=
  key.length = 16 ∨ key.length = 24 ∨ key.length = 32

instance (key : List Nat) : Decidable (aesKeySizeOk key) := by
  unfold aesKeySizeOk; infer_instance

/-- Embeds `encrypt` (http.go lines 479-502): derive the key, seal `data` with a
fresh random `nonce` (`gcm.Seal(nonce, nonce, data, nil)` prepends the nonce
to the sealed bytes), and base64-encode the result.  The nonce drawn from
`rand.Reader` is passed as an argument. -/
def encrypt (g : GCMScheme) (consumerSecretKey nonce data : List Nat) :
    Except String (List Char) :=
  let key := generateKey consumerSecretKey
  if aesKeySizeOk key then
    let ciphertext := nonce ++ g.sealFn key nonce data
    .ok (b64EncodeBytes ciphertext)
  else
    .error "crypto aes: invalid key size"

/-- Embeds `decrypt` (http.go lines 505-536): base64-decode, check the length
against the nonce size, split off the nonce and open the remainder. -/
def decrypt (g : GCMScheme) (consumerSecretKey : List Nat)
    (data : List Char) : Except String (List Nat) :=
  let key := generateKey consumerSecretKey
  match b64DecodeQuanta data with
  | .error e => .error e
  | .ok ciphertext =>
    if aesKeySizeOk key then
      if ciphertext.length < g.nonceSize then
        .error "ciphertext too short"
      else
        g.openFn key (ciphertext.take g.nonceSize) (ciphertext.drop g.nonceSize)
    else
      .error "crypto aes: invalid key size"

theorem generateKey_length (s : List Nat) : (generateKey s).length = 32 := by
  unfold generateKey
  dsimp only
  split
  next h => simp [List.length_take]; omega
  next h =>
    split
    next h2 => simp; omega
    next h2 => omega

theorem generateKey_keySizeOk (s : List Nat) : aesKeySizeOk (generateKey s) := by
  right; right; exact generateKey_length s

/-- C7: `generateKey` derives a static symmetric key from the consumer
secret: the result is always exactly 32 bytes, equal to the first 32 bytes of
the secret when the secret is at least 32 bytes long and to the secret padded
with zero bytes to length 32 otherwise.  Determinism (two calls with the same
secret return the same key) is definitional, since `generateKey` is a pure
function of the secret alone; it is stated as the last conjunct. -/
theorem generateKey_spec (s : List Nat) :
    (generateKey s).length = 32 ∧
    (32 ≤ s.length → generateKey s = s.take 32) ∧
    (s.length < 32 → generateKey s = s ++ List.replicate (32 - s.length) 0) ∧
    generateKey s = generateKey s := by
  refine ⟨generateKey_length s, ?_, ?_, rfl⟩
  · intro h
    unfold generateKey
    dsimp only
    by_cases h1 : s.length > 32
    · rw [if_pos h1]
    · rw [if_neg h1, if_neg (by omega), List.take_of_length_le (by omega)]
  · intro h
    unfold generateKey
    dsimp only
    rw [if_neg (by omega), if_pos h]

theorem generateKey_spec_witness :
    ((generateKey (List.replicate 40 7)).length = 32 ∧
      generateKey (List.replicate 40 7) = (List.replicate 40 7).take 32) ∧
    generateKey [9, 9] = [9, 9] ++ List.replicate 30 0 := by
  refine ⟨⟨(generateKey_spec (List.replicate 40 7)).1,
    (generateKey_spec (List.replicate 40 7)).2.1 (by decide)⟩,
    (generateKey_spec [9, 9]).2.2.1 (by decide)⟩

theorem encrypt_eq_ok (g : GCMScheme) (secret nonce data : List Nat) :
    encrypt g secret nonce data =
      .ok (b64EncodeBytes (nonce ++ g.sealFn (generateKey secret) nonce data)) := by
  unfold encrypt
  simp [generateKey_keySizeOk secret]

theorem decrypt_encrypted (g : GCMScheme) (secret nonce data : List Nat)
    (hn : nonce.length = g.nonceSize)
    (hnb : ∀ b ∈ nonce, b < 256)
    (hdb : ∀ b ∈ data, b < 256) :
    decrypt g secret
      (b64EncodeBytes (nonce ++ g.sealFn (generateKey secret) nonce data)) = .ok data := by
  have hkey : aesKeySizeOk (generateKey secret) := generateKey_keySizeOk secret
  have hsealb : ∀ b ∈ g.sealFn (generateKey secret) nonce data, b < 256 :=
    g.sealFn_lt _ _ _ hdb
  have hctb : ∀ b ∈ nonce ++ g.sealFn (generateKey secret) nonce data, b < 256 := by
    intro b hbm
    rcases List.mem_append.mp hbm with h | h
    · exact hnb b h
    · exact hsealb b h
  have hdec := b64_decode_encode _ hctb
  unfold decrypt
  simp only [hdec]
  have hnotlt : ¬ (nonce ++ g.sealFn (generateKey secret) nonce data).length < g.nonceSize := by
    simp [List.length_append, hn]
  simp only [if_pos hkey, if_neg hnotlt,
    @List.take_left' _ nonce (g.sealFn (generateKey secret) nonce data) _ hn,
    @List.drop_left' _ nonce (g.sealFn (generateKey secret) nonce data) _ hn]
  exact g.openFn_sealFn _ _ _

/-- C1: for every byte sequence `data`, every consumer secret and every nonce
drawn by `encrypt` (a `nonceSize`-byte random byte string), decrypting the
output of `encrypt` with the same consumer secret returns exactly `data`:
`encrypt` seals `data` under the key derived from the secret, prepends the
nonce and base64-encodes, and `decrypt` inverts these steps. -/
theorem encrypt_decrypt_roundtrip (g : GCMScheme) (secret nonce data : List Nat)
    (hn : nonce.length = g.nonceSize)
    (hnb : ∀ b ∈ nonce, b < 256)
    (hdb : ∀ b ∈ data, b < 256) :
    (encrypt g secret nonce data).bind (decrypt g secret) = .ok data := by
  rw [encrypt_eq_ok]
  exact decrypt_encrypted g secret nonce data hn hnb hdb

theorem encrypt_decrypt_roundtrip_witness :
    (encrypt demoGCM [1, 2, 3] (List.replicate 12 0) [104, 105]).bind
      (decrypt demoGCM [1, 2, 3]) = .ok [104, 105] :=
  encrypt_decrypt_roundtrip demoGCM [1, 2, 3] (List.replicate 12 0) [104, 105]
    (by decide) (by decide) (by decide)

/-- C10: `decrypt` is total on malformed input and returns an error (never a
panic — in this embedding every branch returns an `Except` value): if the
base64 decoding of the input fails, `decrypt` propagates that error; if the
decoded bytes are shorter than the GCM nonce size, `decrypt` returns the
`ciphertext too short` error before any slicing takes place; and if GCM
authentication of the remainder fails under the derived key, `decrypt`
returns that failure. -/
theorem decrypt_total_on_malformed (g : GCMScheme) (secret : List Nat)
    (input : List Char) :
    (∀ e, b64DecodeQuanta input = .error e → decrypt g secret input = .error e) ∧
    (∀ ct, b64DecodeQuanta input = .ok ct → ct.length < g.nonceSize →
      decrypt g secret input = .error "ciphertext too short") ∧
    (∀ ct e, b64DecodeQuanta input = .ok ct → ¬ ct.length < g.nonceSize →
      g.openFn (generateKey secret) (ct.take g.nonceSize) (ct.drop g.nonceSize) =
        .error e →
      decrypt g secret input = .error e) := by
  have hkey : aesKeySizeOk (generateKey secret) := generateKey_keySizeOk secret
  refine ⟨?_, ?_, ?_⟩
  · intro e hdec
    unfold decrypt
    simp only [hdec]
  · intro ct hdec hshort
    unfold decrypt
    simp only [hdec, if_pos hkey, if_pos hshort]
  · intro ct e hdec hlong hopen
    unfold decrypt
    simp only [hdec, if_pos hkey, if_neg hlong, hopen]

theorem decrypt_total_on_malformed_witness :
    decrypt demoGCM [1, 2, 3] ['*'] = .error "illegal base64 data" ∧
    decrypt demoGCM [1, 2, 3] [] = .error "ciphertext too short" ∧
    decrypt demoGCM [1, 2, 3]
        (b64EncodeBytes (List.replicate 12 0 ++ [1])) =
      .error "cipher: message authentication failed" := by
  refine ⟨(decrypt_total_on_malformed demoGCM [1, 2, 3] ['*']).1
      "illegal base64 data" rfl,
    (decrypt_total_on_malformed demoGCM [1, 2, 3] []).2.1 [] rfl (by decide),
    (decrypt_total_on_malformed demoGCM [1, 2, 3]
        (b64EncodeBytes (List.replicate 12 0 ++ [1]))).2.2
      (List.replicate 12 0 ++ [1]) "cipher: message authentication failed"
      (b64_decode_encode (List.replicate 12 0 ++ [1]) (by decide)) (by decide) (by rfl)⟩

/-! ## Token persistence (`src/internal/client/http.go` lines 403-476)

`TokenConfig` mirrors the Go struct with its two JSON fields `token` and
`token_secret`; `OAuthToken` mirrors `oauth1.Token`.  The `encoding/json`
marshalling of this two-field object is a Go standard-library primitive;
`TokenCodec` embeds its interface together with its documented contract:
`Unmarshal` inverts `Marshal` and marshalled output is a byte sequence.  A
concrete instance (`demoCodec`) is provided so that statements can be
evaluated on explicit inputs. -/

structure TokenConfig where
  token : String
  tokenSecret : String
deriving DecidableEq

structure OAuthToken where
  token : String
  tokenSecret : String
deriving DecidableEq

structure TokenCodec where
  marshal : TokenConfig → List Nat
  unmarshal : List Nat → Except String TokenConfig
  marshal_lt : ∀ tc, ∀ b ∈ marshal tc, b < 256
  unmarshal_marshal : ∀ tc, unmarshal (marshal tc) = .ok tc

/-- Unary length encoding used by the concrete codec instance: `n` ones
followed by a zero. -/
def natUnary (n : Nat) : List Nat :=
  List.replicate n 1 ++ [0]

/-- Three-byte big-endian encoding of a character (Unicode scalar values are
below `2 ^ 21`). -/
def charBytes (c : Char) : List Nat :=
  [c.toNat / 65536, c.toNat / 256 % 256, c.toNat % 256]

def strBytes (s : String) : List Nat :=
  natUnary s.toList.length ++ (s.toList.map charBytes).flatten

def demoMarshal (tc : TokenConfig) : List Nat :=
  strBytes tc.token ++ strBytes tc.tokenSecret

def parseUnary : List Nat → Option (Nat × List Nat)
  | 0 :: rest => some (0, rest)
  | 1 :: rest => (parseUnary rest).map (fun p => (p.1 + 1, p.2))
  | _ => none

def parseChars : Nat → List Nat → Option (List Char × List Nat)
  | 0, rest => some ([], rest)
  | n + 1, b1 :: b2 :: b3 :: rest =>
      (parseChars n rest).map
        (fun p => (Char.ofNat (b1 * 65536 + b2 * 256 + b3) :: p.1, p.2))
  | _ + 1, _ => none

def parseStr (l : List Nat) : Option (String × List Nat) :=
  match parseUnary l with
  | none => none
  | some (n, r) =>
    match parseChars n r with
    | none => none
    | some (cs, r2) => some (String.mk cs, r2)

def demoUnmarshal (l : List Nat) : Except String TokenConfig :=
  match parseStr l with
  | some (t, r) =>
    match parseStr r with
    | some (ts, []) => .ok ⟨t, ts⟩
    | _ => .error "unmarshal failed"
  | none => .error "unmarshal failed"

theorem char_toNat_lt (c : Char) : c.toNat < 1114112 := by
  have := c.valid
  rcases this with h | ⟨h1, h2⟩ <;> simp [Char.toNat] at * <;> omega

theorem parseUnary_natUnary (n : Nat) (rest : List Nat) :
    parseUnary (natUnary n ++ rest) = some (n, rest) := by
  induction n with
  | zero => rfl
  | succ k ih =>
      have : natUnary (k + 1) ++ rest = 1 :: (natUnary k ++ rest) := by
        simp [natUnary, List.replicate_succ]
      rw [this]
      simp [parseUnary, ih]

theorem parseChars_charBytes (cs : List Char) (rest : List Nat) :
    parseChars cs.length ((cs.map charBytes).flatten ++ rest) = some (cs, rest) := by
  induction cs with
  | nil => rfl
  | cons c tail ih =>
      simp only [List.map_cons, List.flatten_cons, List.length_cons, charBytes,
        List.cons_append, List.append_assoc, parseChars, List.append_eq,
        List.nil_append, ih]
      simp only [Option.map_some']
      rw [show c.toNat / 65536 * 65536 + c.toNat / 256 % 256 * 256 + c.toNat % 256
            = c.toNat by omega]
      rw [Char.ofNat_toNat]

theorem stringMk_toList (s : String) : String.mk s.toList = s := by
  cases s
  rfl

theorem parseStr_strBytes (s : String) (rest : List Nat) :
    parseStr (strBytes s ++ rest) = some (s, rest) := by
  unfold parseStr strBytes
  rw [List.append_assoc, parseUnary_natUnary]
  simp only [parseChars_charBytes, stringMk_toList]

theorem demoUnmarshal_demoMarshal (tc : TokenConfig) :
    demoUnmarshal (demoMarshal tc) = .ok tc := by
  unfold demoUnmarshal demoMarshal
  rw [parseStr_strBytes]
  have h2 : parseStr (strBytes tc.tokenSecret) = some (tc.tokenSecret, []) := by
    rw [show strBytes tc.tokenSecret = strBytes tc.tokenSecret ++ [] by simp,
      parseStr_strBytes]
  simp only [h2]

theorem natUnary_lt (n : Nat) : ∀ b ∈ natUnary n, b < 256 := by
  intro b hb
  simp only [natUnary, List.mem_append, List.mem_replicate, List.mem_singleton] at hb
  rcases hb with ⟨_, h⟩ | h <;> omega

theorem strBytes_lt (s : String) : ∀ b ∈ strBytes s, b < 256 := by
  intro b hb
  simp only [strBytes, List.mem_append] at hb
  rcases hb with h | h
  · exact natUnary_lt _ b h
  · rw [List.mem_flatten] at h
    rcases h with ⟨l, hl, hbl⟩
    rw [List.mem_map] at hl
    rcases hl with ⟨c, _, rfl⟩
    have hc := char_toNat_lt c
    simp only [charBytes, List.mem_cons, List.mem_singleton] at hbl
    rcases hbl with rfl | rfl | rfl | h
    · omega
    · omega
    · omega
    · simp at h

/-- The concrete codec instance used for evaluating the theorems on explicit
inputs: a length-prefixed injective byte encoding of the two strings. -/
def demoCodec : TokenCodec where
  marshal := demoMarshal
  unmarshal := demoUnmarshal
  marshal_lt := by
    intro tc b hb
    simp only [demoMarshal, List.mem_append] at hb
    rcases hb with h | h
    · exact strBytes_lt _ b h
    · exact strBytes_lt _ b h
  unmarshal_marshal := demoUnmarshal_demoMarshal

/-- The client fields `saveTokensSecurely` / `loadTokensSecurely` read:
`consumerSecretKey` (the shared secret's bytes) and `token` (the OAuth token
pair, `nil` modelled as `none`). -/
structure DiscogsClientTokens where
  consumerSecretKey : List Nat
  token : Option OAuthToken

/-- Embeds `saveTokensSecurely` (http.go lines 403-438): error when there is no
token; otherwise marshal the `TokenConfig` built from the token pair, encrypt
it (with the nonce drawn inside `encrypt`), and write the result to the
config file.  The result is the content written; the filesystem is modelled
by the caller holding this content. -/
def saveTokensSecurely (g : GCMScheme) (j : TokenCodec)
    (c : DiscogsClientTokens) (nonce : List Nat) : Except String (List Char) :=
  match c.token with
  | none => .error "no token to save"
  | some tok =>
    let data := j.marshal ⟨tok.token, tok.tokenSecret⟩
    encrypt g c.consumerSecretKey nonce data

/-- Embeds `loadTokensSecurely` (http.go lines 441-476): error when the config file
does not exist; otherwise read it, decrypt, unmarshal, and build the
`oauth1.Token` from the two fields. -/
def loadTokensSecurely (g : GCMScheme) (j : TokenCodec)
    (consumerSecretKey : List Nat) (file : Option (List Char)) :
    Except String OAuthToken :=
  match file with
  | none => .error "config file does not exist"
  | some content =>
    match decrypt g consumerSecretKey content with
    | .error e => .error ("failed to decrypt token data: " ++ e)
    | .ok data =>
      match j.unmarshal data with
      | .error e => .error ("failed to unmarshal token config: " ++ e)
      | .ok tc => .ok ⟨tc.token, tc.tokenSecret⟩

theorem saveTokensSecurely_eq_ok (g : GCMScheme) (j : TokenCodec)
    (c : DiscogsClientTokens) (nonce : List Nat) (tok : OAuthToken)
    (htok : c.token = some tok) :
    saveTokensSecurely g j c nonce =
      .ok (b64EncodeBytes (nonce ++ g.sealFn (generateKey c.consumerSecretKey) nonce
        (j.marshal ⟨tok.token, tok.tokenSecret⟩))) := by
  unfold saveTokensSecurely
  rw [htok]
  exact encrypt_eq_ok g c.consumerSecretKey nonce (j.marshal ⟨tok.token, tok.tokenSecret⟩)

theorem load_after_save (g : GCMScheme) (j : TokenCodec)
    (c : DiscogsClientTokens) (nonce : List Nat) (tok : OAuthToken)
    (htok : c.token = some tok)
    (hn : nonce.length = g.nonceSize)
    (hnb : ∀ b ∈ nonce, b < 256) :
    ∀ content, saveTokensSecurely g j c nonce = .ok content →
      loadTokensSecurely g j c.consumerSecretKey (some content) = .ok tok := by
  intro content hsave
  rw [saveTokensSecurely_eq_ok g j c nonce tok htok] at hsave
  have hcontent : content = b64EncodeBytes (nonce ++
      g.sealFn (generateKey c.consumerSecretKey) nonce
        (j.marshal ⟨tok.token, tok.tokenSecret⟩)) := by
    cases hsave
    rfl
  subst hcontent
  unfold loadTokensSecurely
  simp only [decrypt_encrypted g c.consumerSecretKey nonce
    (j.marshal ⟨tok.token, tok.tokenSecret⟩) hn hnb
    (j.marshal_lt ⟨tok.token, tok.tokenSecret⟩),
    j.unmarshal_marshal ⟨tok.token, tok.tokenSecret⟩]

/-- C2: for every OAuth token pair, if `saveTokensSecurely` succeeds then a
subsequent `loadTokensSecurely` with the same consumer secret key, on the
unmodified file content the save wrote, succeeds and returns the same pair;
and the persisted form is exactly the encryption (under the key derived from
the consumer secret) of the JSON serialization of the pair. -/
theorem save_load_roundtrip (g : GCMScheme) (j : TokenCodec)
    (c : DiscogsClientTokens) (nonce : List Nat) (tok : OAuthToken)
    (htok : c.token = some tok)
    (hn : nonce.length = g.nonceSize)
    (hnb : ∀ b ∈ nonce, b < 256) :
    ∀ content, saveTokensSecurely g j c nonce = .ok content →
      loadTokensSecurely g j c.consumerSecretKey (some content) = .ok tok ∧
      encrypt g c.consumerSecretKey nonce (j.marshal ⟨tok.token, tok.tokenSecret⟩) =
        .ok content := by
  intro content hsave
  refine ⟨load_after_save g j c nonce tok htok hn hnb content hsave, ?_⟩
  rw [saveTokensSecurely_eq_ok g j c nonce tok htok] at hsave
  rw [encrypt_eq_ok]
  exact hsave

theorem save_load_roundtrip_witness :
    loadTokensSecurely demoGCM demoCodec [1, 2, 3]
        (some (b64EncodeBytes (List.replicate 12 0 ++
          demoGCM.sealFn (generateKey [1, 2, 3]) (List.replicate 12 0)
            (demoCodec.marshal ⟨"t", "s"⟩)))) = .ok ⟨"t", "s"⟩ :=
  (save_load_roundtrip demoGCM demoCodec ⟨[1, 2, 3], some ⟨"t", "s"⟩⟩
    (List.replicate 12 0) ⟨"t", "s"⟩ rfl (by decide) (by decide)
    (b64EncodeBytes (List.replicate 12 0 ++
      demoGCM.sealFn (generateKey [1, 2, 3]) (List.replicate 12 0)
        (demoCodec.marshal ⟨"t", "s"⟩)))
    (saveTokensSecurely_eq_ok demoGCM demoCodec ⟨[1, 2, 3], some ⟨"t", "s"⟩⟩
      (List.replicate 12 0) ⟨"t", "s"⟩ rfl)).1

/-! ## Re-authentication control flow (`NewWithContext`, http.go lines 190-221)

After the token has been installed and the transport set up,
`NewWithContext` verifies the identity (`getIdentityWithContext`); on failure
it clears the token, runs the OAuth flow once, saves the new tokens (a save
failure only prints a warning), and verifies once more; a second failure is
returned as an error with no further attempt.  Network outcomes are oracles:
`verify k` is the outcome of the `k`-th identity verification call and
`oauthResult` the outcome of the OAuth flow. -/

inductive AuthEvent
  | verifyAttempt (ok : Bool)
  | oauthAttempt (ok : Bool)
  | saveAttempt (ok : Bool)
deriving DecidableEq

def AuthEvent.isOauthAttempt : AuthEvent → Bool
  | .oauthAttempt _ => true
  | _ => false

def AuthEvent.isVerifyAttempt : AuthEvent → Bool
  | .verifyAttempt _ => true
  | _ => false

/-- The verification / re-authentication tail of `NewWithContext` (http.go
lines 190-221), returning the resulting client token state and the trace of
verification, OAuth-flow and save attempts it performed. -/
def verifyAndReauth (c : DiscogsClientTokens) (verify : Nat → Bool)
    (oauthResult : Except String OAuthToken) (saveOk : Bool) :
    Except String DiscogsClientTokens × List AuthEvent :=
  if verify 0 then
    (.ok c, [.verifyAttempt true])
  else
    let c1 : DiscogsClientTokens := { c with token := none }
    match oauthResult with
    | .error e =>
        (.error ("re-authentication failed: " ++ e),
         [.verifyAttempt false, .oauthAttempt false])
    | .ok tok =>
        let c2 : DiscogsClientTokens := { c1 with token := some tok }
        let evs : List AuthEvent :=
          [.verifyAttempt false, .oauthAttempt true, .saveAttempt saveOk]
        if verify 1 then
          (.ok c2, evs ++ [.verifyAttempt true])
        else
          (.error "authentication still failing after re-auth",
           evs ++ [.verifyAttempt false])

/-- C3: when the first identity verification fails, exactly one
re-authentication (OAuth flow) is attempted — never more: the trace contains
exactly one OAuth attempt and at most two verification attempts, and the
token is cleared before the flow runs; if the flow succeeds but the second
verification also fails, the function returns an error (it does not retry
again). -/
theorem reauth_exactly_once (c : DiscogsClientTokens) (verify : Nat → Bool)
    (oauthResult : Except String OAuthToken) (saveOk : Bool)
    (h : verify 0 = false) :
    ((verifyAndReauth c verify oauthResult saveOk).2.countP AuthEvent.isOauthAttempt
        = 1) ∧
    ((verifyAndReauth c verify oauthResult saveOk).2.countP AuthEvent.isVerifyAttempt
        ≤ 2) ∧
    (∀ tok, oauthResult = .ok tok → verify 1 = false →
      (verifyAndReauth c verify oauthResult saveOk).1 =
        .error "authentication still failing after re-auth") ∧
    (∀ e, oauthResult = .error e →
      (verifyAndReauth c verify oauthResult saveOk).1 =
        .error ("re-authentication failed: " ++ e)) := by
  unfold verifyAndReauth
  cases oauthResult with
  | error e =>
      simp [h, List.countP, List.countP.go, AuthEvent.isOauthAttempt,
        AuthEvent.isVerifyAttempt]
  | ok tok =>
      by_cases h1 : verify 1 <;>
        simp [h, h1, List.countP, List.countP.go, AuthEvent.isOauthAttempt,
          AuthEvent.isVerifyAttempt]

theorem reauth_exactly_once_witness :
    ((verifyAndReauth ⟨[1], none⟩ (fun _ => false) (.ok ⟨"t", "s"⟩) true).2.countP
        AuthEvent.isOauthAttempt = 1) ∧
    ((verifyAndReauth ⟨[1], none⟩ (fun _ => false) (.ok ⟨"t", "s"⟩) true).1 =
      .error "authentication still failing after re-auth") := by
  refine ⟨(reauth_exactly_once ⟨[1], none⟩ (fun _ => false) (.ok ⟨"t", "s"⟩) true rfl).1,
    (reauth_exactly_once ⟨[1], none⟩ (fun _ => false) (.ok ⟨"t", "s"⟩) true rfl).2.2.1
      ⟨"t", "s"⟩ rfl rfl⟩

/-! ## The token-pair invariant (http.go lines 45-48, 148-163, 403-438)

The states reachable by the client's token operations: loading from secure
storage, taking both environment variables when both are non-empty
(http.go lines 148-163), installing a pair obtained from the OAuth flow's
access-token exchange, clearing the token, and saving to secure storage.
`OA` is the set of token pairs the external OAuth access-token exchange can
return. -/

/-- Both components of the pair are set. -/
def completeTok (t : OAuthToken) : Prop :=
  t.token ≠ "" ∧ t.tokenSecret ≠ ""

structure TokenSysState where
  token : Option OAuthToken
  file : Option (List Char)

inductive TokenStep (g : GCMScheme) (j : TokenCodec) (secret : List Nat)
    (OA : OAuthToken → Prop) : TokenSysState → TokenSysState → Prop
  | loadTok (s : TokenSysState) (tok : OAuthToken) :
      loadTokensSecurely g j secret s.file = .ok tok →
      TokenStep g j secret OA s { s with token := some tok }
  | envTok (s : TokenSysState) (t ts : String) :
      t ≠ "" → ts ≠ "" →
      TokenStep g j secret OA s { s with token := some ⟨t, ts⟩ }
  | oauthTok (s : TokenSysState) (tok : OAuthToken) :
      OA tok →
      TokenStep g j secret OA s { s with token := some tok }
  | clearTok (s : TokenSysState) :
      TokenStep g j secret OA s { s with token := none }
  | saveTok (s : TokenSysState) (nonce : List Nat) (content : List Char) :
      nonce.length = g.nonceSize → (∀ b ∈ nonce, b < 256) →
      saveTokensSecurely g j ⟨secret, s.token⟩ nonce = .ok content →
      TokenStep g j secret OA s { s with file := some content }

inductive TokenReachable (g : GCMScheme) (j : TokenCodec) (secret : List Nat)
    (OA : OAuthToken → Prop) : TokenSysState → Prop
  | init : TokenReachable g j secret OA ⟨none, none⟩
  | step (s s' : TokenSysState) :
      TokenReachable g j secret OA s → TokenStep g j secret OA s s' →
      TokenReachable g j secret OA s'

/-- The inductive invariant: any present token is complete, and any token the
stored file decrypts and parses to is complete. -/
def TokenInv (g : GCMScheme) (j : TokenCodec) (secret : List Nat)
    (s : TokenSysState) : Prop :=
  (∀ tok, s.token = some tok → completeTok tok) ∧
  (∀ content tok, s.file = some content →
    loadTokensSecurely g j secret (some content) = .ok tok → completeTok tok)

theorem tokenInv_preserved (g : GCMScheme) (j : TokenCodec) (secret : List Nat)
    (OA : OAuthToken → Prop) (hOA : ∀ tok, OA tok → completeTok tok)
    (s s' : TokenSysState) (hstep : TokenStep g j secret OA s s')
    (hinv : TokenInv g j secret s) : TokenInv g j secret s' := by
  cases hstep with
  | loadTok tok hload =>
      refine ⟨?_, hinv.2⟩
      intro tok2 htok2
      simp only [Option.some.injEq] at htok2
      subst htok2
      cases hfile : s.file with
      | none =>
          rw [hfile] at hload
          cases hload
      | some content =>
          rw [hfile] at hload
          exact hinv.2 content tok hfile hload
  | envTok t ts ht hts =>
      refine ⟨?_, hinv.2⟩
      intro tok2 htok2
      simp only [Option.some.injEq] at htok2
      subst htok2
      exact ⟨ht, hts⟩
  | oauthTok tok hoa =>
      refine ⟨?_, hinv.2⟩
      intro tok2 htok2
      simp only [Option.some.injEq] at htok2
      subst htok2
      exact hOA tok hoa
  | clearTok =>
      refine ⟨?_, hinv.2⟩
      intro tok2 htok2
      cases htok2
  | saveTok nonce content hn hnb hsave =>
      refine ⟨hinv.1, ?_⟩
      intro content2 tok2 hfile hload
      simp only [Option.some.injEq] at hfile
      subst hfile
      cases htok : s.token with
      | none =>
          unfold saveTokensSecurely at hsave
          rw [htok] at hsave
          cases hsave
      | some tok0 =>
          have hload0 := load_after_save g j ⟨secret, s.token⟩ nonce tok0 htok hn hnb
            content hsave
          rw [hload0] at hload
          cases hload
          exact hinv.1 _ htok

/-- C4: in every state reachable by the client's token operations, the token
pair is either fully present or absent: whenever the client's token field is
non-nil, both the token and the token secret are non-empty.  Tokens enter
from the environment only when both variables are non-empty, from the OAuth
exchange (assumed, as an external input, to deliver complete pairs), from
secure storage only via a file that decrypts and parses to a complete pair,
and the file itself is only written by a successful save of a present
(hence complete) pair. -/
theorem token_pair_all_or_nothing (g : GCMScheme) (j : TokenCodec)
    (secret : List Nat) (OA : OAuthToken → Prop)
    (hOA : ∀ tok, OA tok → completeTok tok)
    (s : TokenSysState) (hreach : TokenReachable g j secret OA s) :
    ∀ tok, s.token = some tok → completeTok tok := by
  have hinv : TokenInv g j secret s := by
    induction hreach with
    | init =>
        constructor
        · intro tok h
          cases h
        · intro content tok h _
          cases h
    | step s s' hr hs ih =>
        exact tokenInv_preserved g j secret OA hOA s s' hs ih
  exact hinv.1

theorem token_pair_all_or_nothing_witness :
    completeTok ⟨"a", "b"⟩ :=
  token_pair_all_or_nothing demoGCM demoCodec [1] (fun t => t = ⟨"a", "b"⟩)
    (fun tok h => by subst h; exact ⟨by decide, by decide⟩)
    ⟨some ⟨"a", "b"⟩, none⟩
    (TokenReachable.step ⟨none, none⟩ ⟨some ⟨"a", "b"⟩, none⟩
      TokenReachable.init
      (TokenStep.oauthTok ⟨none, none⟩ ⟨"a", "b"⟩ rfl))
    ⟨"a", "b"⟩ rfl

/-! ## DTOs and mapping (`src/internal/dto/discogs.go`)

The DTO structures carry the JSON fields the mappers read; `ReleaseModel` is
the display row.  Go's `Artists[0]` / `Labels[0]` indexing panics on an empty
slice; the mappers are therefore embedded with `Option` results, `none`
standing for the out-of-bounds panic. -/

structure DiscogsReleaseFormatDto where
  name : String
  qty : String
  text : String
  descriptions : List String
deriving DecidableEq, Inhabited

structure DiscogsReleaseArtistDto where
  name : String
  anv : String
  join : String
  role : String
  resourceUrl : String
  id : Int
  tracks : String
deriving DecidableEq, Inhabited

structure DiscogsReleaseLabelDto where
  name : String
  catNo : String
  resourceUrl : String
  id : Int
  entityType : String
  entityTypeName : String
deriving DecidableEq, Inhabited

structure NoteDto where
  fieldId : Int
  value : String
deriving DecidableEq, Inhabited

structure DiscogsBasicInformationDto where
  id : Int
  masterId : Int
  masterUrl : String
  resourceUrl : String
  thumb : String
  coverImage : String
  title : String
  year : Int
  formats : List DiscogsReleaseFormatDto
  artists : List DiscogsReleaseArtistDto
  labels : List DiscogsReleaseLabelDto
  genres : List String
  styles : List String
deriving DecidableEq, Inhabited

structure DiscogsReleaseDto (T : Type) where
  id : Int
  instanceId : Int
  rating : Nat
  dateAdded : String
  folderId : Int
  notes : T
  basicInformation : DiscogsBasicInformationDto
deriving DecidableEq, Inhabited

structure ReleaseModel where
  title : String
  rating : Nat
  year : Int
  artist : String
  label : String
  genre : String
  style : String
  mediaCondition : String
  sleeveCondition : String
  note : String
  thumbUrl : String
  format : String
deriving DecidableEq, Inhabited

/-- Go `fmt.Sprintf("%sx %s: %s", format.Qty, format.Name,
strings.Join(format.Descriptions, "-"))`. -/
def formatLine (f : DiscogsReleaseFormatDto) : String :=
  f.qty ++ "x " ++ f.name ++ ": " ++ String.intercalate "-" f.descriptions

/-- The `switch note.FieldId` body of the notes loop in
`MapCollectionReleases`: 1 sets the media condition, 2 the sleeve condition,
3 the note. -/
def applyNote (m : ReleaseModel) (n : NoteDto) : ReleaseModel :=
  if n.fieldId = 1 then { m with mediaCondition := n.value }
  else if n.fieldId = 2 then { m with sleeveCondition := n.value }
  else if n.fieldId = 3 then { m with note := n.value }
  else m

/-- One iteration of the `MapCollectionReleases` loop (discogs.go d.t.o.
lines 105-139): build the row from the release (indexing the first artist
and first label — `none` when either slice is empty, where Go panics), fold
the notes into the condition fields, then join the formats. -/
def mapCollectionRelease (r : DiscogsReleaseDto (List NoteDto)) :
    Option ReleaseModel :=
  match r.basicInformation.artists, r.basicInformation.labels with
  | a0 :: _, l0 :: _ =>
      let tmp : ReleaseModel :=
        { title := r.basicInformation.title
          rating := r.rating
          year := r.basicInformation.year
          artist := a0.name
          label := l0.name
          genre := String.intercalate ", " r.basicInformation.genres
          style := String.intercalate ", " r.basicInformation.styles
          mediaCondition := ""
          sleeveCondition := ""
          note := ""
          thumbUrl := r.basicInformation.thumb
          format := "" }
      let tmp2 := r.notes.foldl applyNote tmp
      some { tmp2 with
        format := String.intercalate "\n\t"
          (r.basicInformation.formats.map formatLine) }
  | _, _ => none

/-- Embeds `MapCollectionReleases`: map every release in order; the Go function's
error result is always `nil`, so the only failure mode is the indexing
panic, modelled as `none`. -/
def MapCollectionReleases :
    List (DiscogsReleaseDto (List NoteDto)) → Option (List ReleaseModel)
  | [] => some []
  | r :: rest =>
    match mapCollectionRelease r, MapCollectionReleases rest with
    | some m, some ms => some (m :: ms)
    | _, _ => none

/-- One iteration of the `MapWishlistReleases` loop (lines 141-165): like the
collection mapper but the `Notes` field is a plain string copied into the
note, and there is no conditions loop. -/
def mapWishlistRelease (r : DiscogsReleaseDto String) : Option ReleaseModel :=
  match r.basicInformation.artists, r.basicInformation.labels with
  | a0 :: _, l0 :: _ =>
      some
        { title := r.basicInformation.title
          rating := r.rating
          year := r.basicInformation.year
          artist := a0.name
          label := l0.name
          genre := String.intercalate ", " r.basicInformation.genres
          style := String.intercalate ", " r.basicInformation.styles
          mediaCondition := ""
          sleeveCondition := ""
          note := r.notes
          thumbUrl := r.basicInformation.thumb
          format := String.intercalate "\n\t"
            (r.basicInformation.formats.map formatLine) }
  | _, _ => none

def MapWishlistReleases :
    List (DiscogsReleaseDto String) → Option (List ReleaseModel)
  | [] => some []
  | r :: rest =>
    match mapWishlistRelease r, MapWishlistReleases rest with
    | some m, some ms => some (m :: ms)
    | _, _ => none

/-- The row `MapCollectionReleases` builds for a release whose artist and
label slices are non-empty (`headD` in place of the partial indexing). -/
def collectionModelOf (r : DiscogsReleaseDto (List NoteDto)) : ReleaseModel :=
  let tmp : ReleaseModel :=
    { title := r.basicInformation.title
      rating := r.rating
      year := r.basicInformation.year
      artist := (r.basicInformation.artists.headD default).name
      label := (r.basicInformation.labels.headD default).name
      genre := String.intercalate ", " r.basicInformation.genres
      style := String.intercalate ", " r.basicInformation.styles
      mediaCondition := ""
      sleeveCondition := ""
      note := ""
      thumbUrl := r.basicInformation.thumb
      format := "" }
  let tmp2 := r.notes.foldl applyNote tmp
  { tmp2 with
    format := String.intercalate "\n\t"
      (r.basicInformation.formats.map formatLine) }

/-- The row `MapWishlistReleases` builds for a release whose artist and label
slices are non-empty. -/
def wishlistModelOf (r : DiscogsReleaseDto String) : ReleaseModel :=
  { title := r.basicInformation.title
    rating := r.rating
    year := r.basicInformation.year
    artist := (r.basicInformation.artists.headD default).name
    label := (r.basicInformation.labels.headD default).name
    genre := String.intercalate ", " r.basicInformation.genres
    style := String.intercalate ", " r.basicInformation.styles
    mediaCondition := ""
    sleeveCondition := ""
    note := r.notes
    thumbUrl := r.basicInformation.thumb
    format := String.intercalate "\n\t"
      (r.basicInformation.formats.map formatLine) }

/-- The display fields the claim lists: title, rating, year, first artist
name, first label name, joined genres, joined styles, thumbnail URL. -/
def displayFields (m : ReleaseModel) :
    String × Nat × Int × String × String × String × String × String :=
  (m.title, m.rating, m.year, m.artist, m.label, m.genre, m.style, m.thumbUrl)

theorem applyNote_displayFields (m : ReleaseModel) (n : NoteDto) :
    displayFields (applyNote m n) = displayFields m := by
  unfold applyNote displayFields
  split_ifs <;> rfl

theorem foldl_applyNote_displayFields (notes : List NoteDto) (m : ReleaseModel) :
    displayFields (notes.foldl applyNote m) = displayFields m := by
  induction notes generalizing m with
  | nil => rfl
  | cons n tail ih =>
      rw [List.foldl_cons, ih (applyNote m n), applyNote_displayFields]

theorem mapCollectionRelease_eq (r : DiscogsReleaseDto (List NoteDto))
    (ha : r.basicInformation.artists ≠ [])
    (hl : r.basicInformation.labels ≠ []) :
    mapCollectionRelease r = some (collectionModelOf r) := by
  unfold mapCollectionRelease collectionModelOf
  cases hart : r.basicInformation.artists with
  | nil => exact absurd hart ha
  | cons a0 atl =>
    cases hlab : r.basicInformation.labels with
    | nil => exact absurd hlab hl
    | cons l0 ltl => simp [hart, hlab]

theorem mapWishlistRelease_eq (r : DiscogsReleaseDto String)
    (ha : r.basicInformation.artists ≠ [])
    (hl : r.basicInformation.labels ≠ []) :
    mapWishlistRelease r = some (wishlistModelOf r) := by
  unfold mapWishlistRelease wishlistModelOf
  cases hart : r.basicInformation.artists with
  | nil => exact absurd hart ha
  | cons a0 atl =>
    cases hlab : r.basicInformation.labels with
    | nil => exact absurd hlab hl
    | cons l0 ltl => simp [hart, hlab]

theorem MapCollectionReleases_eq (rs : List (DiscogsReleaseDto (List NoteDto)))
    (h : ∀ r ∈ rs, r.basicInformation.artists ≠ [] ∧
      r.basicInformation.labels ≠ []) :
    MapCollectionReleases rs = some (rs.map collectionModelOf) := by
  induction rs with
  | nil => rfl
  | cons r rest ih =>
      have hr := h r (by simp)
      rw [MapCollectionReleases, mapCollectionRelease_eq r hr.1 hr.2,
        ih (fun x hx => h x (by simp [hx]))]
      simp

theorem MapWishlistReleases_eq (rs : List (DiscogsReleaseDto String))
    (h : ∀ r ∈ rs, r.basicInformation.artists ≠ [] ∧
      r.basicInformation.labels ≠ []) :
    MapWishlistReleases rs = some (rs.map wishlistModelOf) := by
  induction rs with
  | nil => rfl
  | cons r rest ih =>
      have hr := h r (by simp)
      rw [MapWishlistReleases, mapWishlistRelease_eq r hr.1 hr.2,
        ih (fun x hx => h x (by simp [hx]))]
      simp

/-- A release with an empty artist slice (and a non-empty label slice):
`Artists[0]` is out of bounds. -/
def badArtistsRelease : DiscogsReleaseDto (List NoteDto) :=
  { id := 0, instanceId := 0, rating := 0, dateAdded := "", folderId := 0,
    notes := [],
    basicInformation :=
      { id := 0, masterId := 0, masterUrl := "", resourceUrl := "",
        thumb := "", coverImage := "", title := "t", year := 0, formats := [],
        artists := [],
        labels := [{ name := "l", catNo := "", resourceUrl := "", id := 0,
                     entityType := "", entityTypeName := "" }],
        genres := [], styles := [] } }

/-- A wishlist release with an empty label slice (and a non-empty artist
slice): `Labels[0]` is out of bounds. -/
def badLabelsRelease : DiscogsReleaseDto String :=
  { id := 0, instanceId := 0, rating := 0, dateAdded := "", folderId := 0,
    notes := "",
    basicInformation :=
      { id := 0, masterId := 0, masterUrl := "", resourceUrl := "",
        thumb := "", coverImage := "", title := "t", year := 0, formats := [],
        artists := [{ name := "a", anv := "", join := "", role := "",
                      resourceUrl := "", id := 0, tracks := "" }],
        labels := [],
        genres := [], styles := [] } }

/-- C9: on inputs in which every release has at least one artist and at
least one label, `MapCollectionReleases` and `MapWishlistReleases` succeed
(the Go functions return a `nil` error) with a list of the same length whose
element `i` carries the title, rating, year, first artist name, first label
name, joined genres, joined styles and thumbnail URL of input release `i`;
and on a release with an empty artist or label slice the `Artists[0]` /
`Labels[0]` indexing is out of bounds (the Go code panics; the embedding
returns `none`). -/
theorem map_releases_first_index (rs : List (DiscogsReleaseDto (List NoteDto)))
    (ws : List (DiscogsReleaseDto String))
    (hrs : ∀ r ∈ rs, r.basicInformation.artists ≠ [] ∧
      r.basicInformation.labels ≠ [])
    (hws : ∀ r ∈ ws, r.basicInformation.artists ≠ [] ∧
      r.basicInformation.labels ≠ []) :
    (MapCollectionReleases rs = some (rs.map collectionModelOf) ∧
      (rs.map collectionModelOf).length = rs.length) ∧
    (MapWishlistReleases ws = some (ws.map wishlistModelOf) ∧
      (ws.map wishlistModelOf).length = ws.length) ∧
    (∀ r : DiscogsReleaseDto (List NoteDto), displayFields (collectionModelOf r) =
      (r.basicInformation.title, r.rating, r.basicInformation.year,
       (r.basicInformation.artists.headD default).name,
       (r.basicInformation.labels.headD default).name,
       String.intercalate ", " r.basicInformation.genres,
       String.intercalate ", " r.basicInformation.styles,
       r.basicInformation.thumb)) ∧
    (∀ r : DiscogsReleaseDto String, displayFields (wishlistModelOf r) =
      (r.basicInformation.title, r.rating, r.basicInformation.year,
       (r.basicInformation.artists.headD default).name,
       (r.basicInformation.labels.headD default).name,
       String.intercalate ", " r.basicInformation.genres,
       String.intercalate ", " r.basicInformation.styles,
       r.basicInformation.thumb)) ∧
    MapCollectionReleases [badArtistsRelease] = none ∧
    MapWishlistReleases [badLabelsRelease] = none := by
  refine ⟨⟨MapCollectionReleases_eq rs hrs, by simp⟩,
    ⟨MapWishlistReleases_eq ws hws, by simp⟩, ?_, ?_, rfl, rfl⟩
  · intro r
    unfold collectionModelOf
    rw [show displayFields { r.notes.foldl applyNote _ with
        format := String.intercalate "\n\t"
          (r.basicInformation.formats.map formatLine) } =
        displayFields (r.notes.foldl applyNote _) from rfl]
    rw [foldl_applyNote_displayFields]
    rfl
  · intro r
    rfl

/-- A collection release with one artist and one label. -/
def goodCollectionRelease : DiscogsReleaseDto (List NoteDto) :=
  { id := 1, instanceId := 2, rating := 4, dateAdded := "", folderId := 0,
    notes := [{ fieldId := 1, value := "VG" }],
    basicInformation :=
      { id := 1, masterId := 0, masterUrl := "", resourceUrl := "",
        thumb := "thumb.jpg", coverImage := "", title := "Album", year := 1999,
        formats := [{ name := "Vinyl", qty := "1", text := "",
                      descriptions := ["LP"] }],
        artists := [{ name := "Artist", anv := "", join := "", role := "",
                      resourceUrl := "", id := 1, tracks := "" }],
        labels := [{ name := "Label", catNo := "", resourceUrl := "", id := 1,
                     entityType := "", entityTypeName := "" }],
        genres := ["Rock", "Pop"], styles := ["Indie"] } }

theorem map_releases_first_index_witness :
    MapCollectionReleases [goodCollectionRelease] =
      some ([goodCollectionRelease].map collectionModelOf) ∧
    MapCollectionReleases [badArtistsRelease] = none ∧
    MapWishlistReleases [badLabelsRelease] = none :=
  ⟨(map_releases_first_index [goodCollectionRelease] []
      (by intro r hr; simp at hr; subst hr; exact ⟨by simp [goodCollectionRelease], by simp [goodCollectionRelease]⟩)
      (by simp)).1.1,
   (map_releases_first_index [] [] (by simp) (by simp)).2.2.2.2.1,
   (map_releases_first_index [] [] (by simp) (by simp)).2.2.2.2.2⟩

/-! ## List fetching (`src/internal/client/discogs.go`)

Each getter issues a GET, JSON-decodes the response body into a base DTO and
maps the resulting slice.  `ListsPayload` models the decoded JSON body: which
of the three top-level array fields (`releases`, `wants`, `orders`) are
present; Go's decoder leaves an absent field as the `nil` slice (`getD []`).
Network and JSON-decode failures are returned unchanged by the Go code and
are not modelled; the claims are about the field mapping.  Note that
`GetOrders` (discogs.go lines 79-104) decodes the orders response into a
`WishlistBaseDto` and maps its `Wants` field — the declared `OrdersBaseDto`
with its `orders` field is never used. -/

structure ListsPayload where
  releases : Option (List (DiscogsReleaseDto (List NoteDto)))
  wants : Option (List (DiscogsReleaseDto String))
  orders : Option (List (DiscogsReleaseDto String))

/-- Decoding a body into `CollectionBaseDto` reads the `releases` field. -/
def decodeCollectionBaseDto (p : ListsPayload) :
    List (DiscogsReleaseDto (List NoteDto)) :=
  p.releases.getD []

/-- Decoding a body into `WishlistBaseDto` reads the `wants` field. -/
def decodeWishlistBaseDto (p : ListsPayload) : List (DiscogsReleaseDto String) :=
  p.wants.getD []

/-- Decoding a body into `OrdersBaseDto` reads the `orders` field. -/
def decodeOrdersBaseDto (p : ListsPayload) : List (DiscogsReleaseDto String) :=
  p.orders.getD []

def GetCollection (p : ListsPayload) : Option (List ReleaseModel) :=
  MapCollectionReleases (decodeCollectionBaseDto p)

def GetWishlist (p : ListsPayload) : Option (List ReleaseModel) :=
  MapWishlistReleases (decodeWishlistBaseDto p)

/-- Embeds `GetOrders` as written in the source: it decodes the orders endpoint's
response into a `WishlistBaseDto` (the `wants` field) and maps that, not the
`orders` field. -/
def GetOrders (p : ListsPayload) : Option (List ReleaseModel) :=
  MapWishlistReleases (decodeWishlistBaseDto p)

/-- An order release carried in the orders endpoint's response. -/
def goodOrderRelease : DiscogsReleaseDto String :=
  { id := 1, instanceId := 2, rating := 0, dateAdded := "", folderId := 0,
    notes := "",
    basicInformation :=
      { id := 1, masterId := 0, masterUrl := "", resourceUrl := "",
        thumb := "thumb.jpg", coverImage := "", title := "Ordered", year := 2001,
        formats := [],
        artists := [{ name := "Artist", anv := "", join := "", role := "",
                      resourceUrl := "", id := 1, tracks := "" }],
        labels := [{ name := "Label", catNo := "", resourceUrl := "", id := 1,
                     entityType := "", entityTypeName := "" }],
        genres := [], styles := [] } }

/-- A typical decoded orders endpoint response: an `orders` array with one
entry and no `wants` or `releases` field. -/
def ordersPayload : ListsPayload :=
  { releases := none, wants := none, orders := some [goodOrderRelease] }

/-- C5: `GetCollection` maps the `releases` field and `GetWishlist` the
`wants` field as claimed; but `GetOrders` does not map the `orders` field of
the orders endpoint's response — it decodes into `WishlistBaseDto` and maps
the `wants` field, which an orders response does not carry.  On a response
whose `orders` array holds one entry, `GetOrders` returns the empty list,
while mapping the `orders` field (what the claim states) would return that
entry's row. -/
theorem getOrders_maps_wants_not_orders :
    (∀ p : ListsPayload,
      GetCollection p = MapCollectionReleases (decodeCollectionBaseDto p) ∧
      GetWishlist p = MapWishlistReleases (decodeWishlistBaseDto p) ∧
      GetOrders p = MapWishlistReleases (decodeWishlistBaseDto p)) ∧
    GetOrders ordersPayload = some [] ∧
    decodeOrdersBaseDto ordersPayload = [goodOrderRelease] ∧
    MapWishlistReleases (decodeOrdersBaseDto ordersPayload) =
      some [wishlistModelOf goodOrderRelease] := by
  refine ⟨fun p => ⟨rfl, rfl, rfl⟩, rfl, rfl, ?_⟩
  show MapWishlistReleases [goodOrderRelease] = some [wishlistModelOf goodOrderRelease]
  rw [MapWishlistReleases,
    mapWishlistRelease_eq goodOrderRelease (by simp [goodOrderRelease])
      (by simp [goodOrderRelease])]
  rfl

/-! ## OAuth redirect handler (`handleRedirect`, http.go lines 290-370)

The handler's observable effects on the client: the stored token, the
`doneVerifying` flag, and the HTTP status written.  `handlingRedirect` is set
on entry and reset by the deferred function on every exit past the guard, so
its net effect on those paths is `false`; the guard branch leaves the state
untouched.  `Query.Get` returns the empty string for an absent parameter, so
the two request parameters are plain strings.  The access-token exchange
(`c.config.AccessToken`) is a network call, passed as its outcome. -/

structure RedirectState where
  handlingRedirect : Bool
  doneVerifying : Bool
  requestToken : String
  requestSecret : String
  token : Option OAuthToken
deriving DecidableEq

structure RedirectRequest where
  oauthToken : String
  oauthVerifier : String
deriving DecidableEq

def handleRedirect (st : RedirectState) (req : RedirectRequest)
    (accessTokenResult : Except String (String × String)) :
    RedirectState × Nat :=
  if st.handlingRedirect ∨ st.doneVerifying then
    (st, 400)
  else
    if req.oauthToken ≠ st.requestToken then
      ({ st with handlingRedirect := false }, 400)
    else if req.oauthVerifier = "" then
      ({ st with handlingRedirect := false }, 400)
    else
      match accessTokenResult with
      | .error _ => ({ st with handlingRedirect := false }, 500)
      | .ok (accessTok, accessSec) =>
          ({ st with handlingRedirect := false,
                     token := some ⟨accessTok, accessSec⟩,
                     doneVerifying := true }, 200)

/-- C8: the redirect handler rejects without corrupting state.  A request
arriving while another is being handled or after verification completed gets
HTTP 400 with the state untouched; on every non-success status (token
mismatch 400, missing verifier 400, exchange failure 500) the stored token
and `doneVerifying` are unchanged; the token is installed and
`doneVerifying` set only on the 200 success path, which requires a free
handler, a matching request token, a non-empty verifier and a successful
exchange. -/
theorem handleRedirect_state_safe (st : RedirectState) (req : RedirectRequest)
    (ar : Except String (String × String)) :
    ((st.handlingRedirect ∨ st.doneVerifying) →
      (handleRedirect st req ar).1 = st ∧ (handleRedirect st req ar).2 = 400) ∧
    ((handleRedirect st req ar).2 ≠ 200 →
      (handleRedirect st req ar).1.token = st.token ∧
      (handleRedirect st req ar).1.doneVerifying = st.doneVerifying) ∧
    (∀ e, ar = .error e → ¬st.handlingRedirect → ¬st.doneVerifying →
      req.oauthToken = st.requestToken → req.oauthVerifier ≠ "" →
      (handleRedirect st req ar).2 = 500) ∧
    ((handleRedirect st req ar).2 = 200 →
      ¬st.handlingRedirect ∧ ¬st.doneVerifying ∧
      req.oauthToken = st.requestToken ∧ req.oauthVerifier ≠ "" ∧
      ∃ a b, ar = .ok (a, b) ∧
        (handleRedirect st req ar).1.token = some ⟨a, b⟩ ∧
        (handleRedirect st req ar).1.doneVerifying = true) := by
  refine ⟨?_, ?_, ?_, ?_⟩
  · intro hb
    unfold handleRedirect
    rw [if_pos hb]
    exact ⟨rfl, rfl⟩
  · intro hne
    unfold handleRedirect at hne ⊢
    by_cases hbusy : st.handlingRedirect ∨ st.doneVerifying
    · rw [if_pos hbusy]
      exact ⟨rfl, rfl⟩
    · rw [if_neg hbusy] at hne ⊢
      by_cases htok : req.oauthToken = st.requestToken
      · rw [if_neg (not_not_intro htok)] at hne ⊢
        by_cases hver : req.oauthVerifier = ""
        · rw [if_pos hver]
          exact ⟨rfl, rfl⟩
        · rw [if_neg hver] at hne ⊢
          cases ar with
          | error e => exact ⟨rfl, rfl⟩
          | ok p =>
              cases p with
              | mk a b => exact absurd rfl hne
      · rw [if_pos htok]
        exact ⟨rfl, rfl⟩
  · intro e har hh hd htok hver
    subst har
    unfold handleRedirect
    rw [if_neg (by simp [hh, hd]), if_neg (not_not_intro htok), if_neg hver]
  · intro h200
    unfold handleRedirect at h200 ⊢
    by_cases hbusy : st.handlingRedirect ∨ st.doneVerifying
    · rw [if_pos hbusy] at h200
      simp at h200
    · rw [if_neg hbusy] at h200 ⊢
      by_cases htok : req.oauthToken = st.requestToken
      · rw [if_neg (not_not_intro htok)] at h200 ⊢
        by_cases hver : req.oauthVerifier = ""
        · rw [if_pos hver] at h200
          simp at h200
        · rw [if_neg hver] at h200 ⊢
          cases ar with
          | error e => simp at h200
          | ok p =>
              cases p with
              | mk a b =>
                  rw [not_or] at hbusy
                  exact ⟨hbusy.1, hbusy.2, htok, hver, a, b, rfl, rfl, rfl⟩
      · rw [if_pos htok] at h200
        simp at h200

theorem handleRedirect_state_safe_witness :
    ((handleRedirect ⟨true, false, "rt", "rs", none⟩ ⟨"rt", "v"⟩
        (.ok ("a", "b"))).1 = ⟨true, false, "rt", "rs", none⟩ ∧
      (handleRedirect ⟨true, false, "rt", "rs", none⟩ ⟨"rt", "v"⟩
        (.ok ("a", "b"))).2 = 400) ∧
    (handleRedirect ⟨false, false, "rt", "rs", none⟩ ⟨"rt", "v"⟩
      (.error "boom")).2 = 500 := by
  refine ⟨(handleRedirect_state_safe ⟨true, false, "rt", "rs", none⟩ ⟨"rt", "v"⟩
      (.ok ("a", "b"))).1 (Or.inl rfl),
    (handleRedirect_state_safe ⟨false, false, "rt", "rs", none⟩ ⟨"rt", "v"⟩
      (.error "boom")).2.2.1 "boom" rfl (by decide) (by decide) rfl (by decide)⟩

/-! ## Callback server lifecycle (`generateDiscogsTokenWithContext`,
http.go lines 224-288)

The function starts the local HTTP callback server only after the request
token and the authorization URL have been obtained, and then blocks on a
`select` with three exits: context cancellation, OAuth completion (success
or error on the completion channel), and the 5-minute timeout.  `outcome`
is which exit fires; `ServerTrace` records whether the server was started
(`ListenAndServe`) and whether `server.Close()` was called before
returning. -/

inductive OAuthWaitOutcome
  | ctxDone (e : String)
  | completed (err : Option String)
  | timedOut
deriving DecidableEq

structure ServerTrace where
  opened : Bool
  closed : Bool
deriving DecidableEq

def generateDiscogsTokenServer
    (requestTokenResult : Except String (String × String))
    (authUrlResult : Except String String) (outcome : OAuthWaitOutcome) :
    Except String Unit × ServerTrace :=
  match requestTokenResult with
  | .error e => (.error ("error at RequestToken: " ++ e), ⟨false, false⟩)
  | .ok _ =>
    match authUrlResult with
    | .error e => (.error ("error at AuthorizationURL: " ++ e), ⟨false, false⟩)
    | .ok _ =>
      match outcome with
      | .ctxDone e => (.error e, ⟨true, true⟩)
      | .completed none => (.ok (), ⟨true, true⟩)
      | .completed (some e) => (.error e, ⟨true, true⟩)
      | .timedOut => (.error "OAuth flow timed out after 5 minutes", ⟨true, true⟩)

/-- C6: the callback listener is opened only during the handshake and closed
on every exit of `generateDiscogsTokenWithContext`: on every input the trace
satisfies `closed = opened` (the listener is never left open on return), and
whenever the server was started (both preliminary steps succeeded) it is
also closed, on all three `select` exits — completion with or without error,
context cancellation, and the 5-minute timeout. -/
theorem server_closed_on_every_exit
    (r : Except String (String × String)) (a : Except String String)
    (o : OAuthWaitOutcome) :
    ((generateDiscogsTokenServer r a o).2.closed =
      (generateDiscogsTokenServer r a o).2.opened) ∧
    (∀ t s u, r = .ok (t, s) → a = .ok u →
      (generateDiscogsTokenServer r a o).2.opened = true ∧
      (generateDiscogsTokenServer r a o).2.closed = true) := by
  cases r with
  | error e => exact ⟨rfl, fun t s u h _ => by cases h⟩
  | ok p =>
    cases a with
    | error e => exact ⟨rfl, fun t s u _ h => by cases h⟩
    | ok u =>
      cases o with
      | ctxDone e => exact ⟨rfl, fun _ _ _ _ _ => ⟨rfl, rfl⟩⟩
      | completed err =>
          cases err with
          | none => exact ⟨rfl, fun _ _ _ _ _ => ⟨rfl, rfl⟩⟩
          | some e => exact ⟨rfl, fun _ _ _ _ _ => ⟨rfl, rfl⟩⟩
      | timedOut => exact ⟨rfl, fun _ _ _ _ _ => ⟨rfl, rfl⟩⟩

theorem server_closed_on_every_exit_witness :
    (generateDiscogsTokenServer (.ok ("t", "s")) (.ok "url") .timedOut).2.opened
        = true ∧
    (generateDiscogsTokenServer (.ok ("t", "s")) (.ok "url") .timedOut).2.closed
        = true :=
  (server_closed_on_every_exit (.ok ("t", "s")) (.ok "url") .timedOut).2
    "t" "s" "url" rfl rfl
